import Mathlib

/-!
Verification of the PassAudit core against its specification.

A Python `str` is modelled as a `List Char` (a sequence of Unicode code
points).  Python's character-class predicates (`str.islower`, `str.isupper`,
`str.isdigit`, `str.isspace`, `str.isalnum`) are Unicode-table lookups; they
are modelled here exactly for all code points up to U+00FF (the Latin-1
range, which covers every character any theorem below evaluates), and return
`false` above that range while the "extended" test `127 < code` is exact
everywhere.

Float arithmetic (`math.log2`, float division, `math.ceil`) is modelled over
the real numbers.  The SHA-256 hex digest `hash_password` is an I/O-free
deterministic function whose internals no claim depends on; the development
abstracts it as an explicit function argument `hash`, so every theorem holds
for the actual digest function in particular.
-/

namespace PassAudit

/-- Python `str.islower` on one character, exact on the Latin-1 range:
a-z, ª, µ, º, ß-ö, ø-ÿ. -/
def pyIsLower (c : Char) : Bool :=
  let n := c.toNat
  (97 ≤ n && n ≤ 122) || n == 170 || n == 181 || n == 186 ||
  (223 ≤ n && n ≤ 246) || (248 ≤ n && n ≤ 255)

/-- Python `str.isupper` on one character, exact on the Latin-1 range:
A-Z, À-Ö, Ø-Þ. -/
def pyIsUpper (c : Char) : Bool :=
  let n := c.toNat
  (65 ≤ n && n ≤ 90) || (192 ≤ n && n ≤ 214) || (216 ≤ n && n ≤ 222)

/-- Python `str.isdigit` on one character, exact on the Latin-1 range:
0-9 and the superscripts ¹ ² ³. -/
def pyIsDigit (c : Char) : Bool :=
  let n := c.toNat
  (48 ≤ n && n ≤ 57) || n == 178 || n == 179 || n == 185

/-- Python `str.isspace` on one character, exact on the Latin-1 range:
TAB LF VT FF CR, the four information separators, SPACE, NEL, NBSP. -/
def pyIsSpace (c : Char) : Bool :=
  let n := c.toNat
  (9 ≤ n && n ≤ 13) || (28 ≤ n && n ≤ 32) || n == 133 || n == 160

/-- Python `str.isalnum` on one character, exact on the Latin-1 range:
letters, digits, and the numeric fractions ¼ ½ ¾. -/
def pyIsAlnum (c : Char) : Bool :=
  pyIsLower c || pyIsUpper c || pyIsDigit c ||
  c.toNat == 188 || c.toNat == 189 || c.toNat == 190

/-- Code points of Python `string.punctuation` (the 32 ASCII symbols). -/
def isPunctCode (n : Nat) : Bool :=
  (33 ≤ n && n ≤ 47) || (58 ≤ n && n ≤ 64) || (91 ≤ n && n ≤ 96) ||
  (123 ≤ n && n ≤ 126)

/-- Python `string.punctuation` as a list of characters. -/
def punctuation : List Char :=
  ((List.range 128).filter isPunctCode).map Char.ofNat

/-- Python `string.ascii_lowercase`. -/
def ascii_lowercase : List Char := (List.range' 97 26).map Char.ofNat

/-- Python `string.ascii_uppercase`. -/
def ascii_uppercase : List Char := (List.range' 65 26).map Char.ofNat

/-- Python `string.ascii_letters` (lowercase then uppercase). -/
def ascii_letters : List Char := ascii_lowercase ++ ascii_uppercase

/-- Python `string.digits`. -/
def string_digits : List Char := (List.range' 48 10).map Char.ofNat

/-- Python `str.strip()` with no argument: remove leading and trailing
whitespace characters. -/
def pyStrip (l : List Char) : List Char :=
  ((l.dropWhile pyIsSpace).reverse.dropWhile pyIsSpace).reverse

/-- Python `s.startswith("#")` for the string `s` (false on the empty
string). -/
def startsWithHashMark (l : List Char) : Bool :=
  match l with
  | [] => false
  | c :: _ => c == '#'

/-- Python `sep.join(parts)`. -/
def pyJoin (sep : List Char) (parts : List (List Char)) : List Char :=
  List.intercalate sep parts

/-! ## src/utils/crypto.py -/

/-- The assumed charset size accumulated by `calculate_entropy`
(src/utils/crypto.py lines 14-36): each character-class predicate that holds
somewhere in the password adds its fixed contribution.  The code runs
`charset_size += ...` for each present class in this order. -/
def charsetSize (password : List Char) : Nat :=
  (if password.any pyIsLower then 26 else 0) +
  (if password.any pyIsUpper then 26 else 0) +
  (if password.any pyIsDigit then 10 else 0) +
  (if password.any (fun c => c ∈ punctuation) then punctuation.length else 0) +
  (if password.any pyIsSpace then 1 else 0) +
  (if password.any (fun c => 127 < c.toNat) then 100 else 0)

/-- Embedding of `calculate_entropy` (src/utils/crypto.py lines 10-44):
returns 0.0 for the empty password, 0.0 when no character class is present,
and otherwise `len(password) * math.log2(charset_size)`. -/
noncomputable def calculate_entropy (password : List Char) : ℝ :=
  if password = [] then 0
  else if charsetSize password = 0 then 0
  else (password.length : ℝ) * Real.logb 2 (charsetSize password)

/-- Embedding of `calculate_password_strength_score`
(src/utils/crypto.py lines 47-60). -/
noncomputable def calculate_password_strength_score
    (entropy : ℝ) (is_common : Bool) : ℤ :=
  if is_common then 0
  else if entropy < 28 then 0
  else if entropy < 36 then 1
  else if entropy < 60 then 2
  else if entropy < 128 then 3
  else 4

/-! ## src/utils/dictionary_loader.py

A dictionary file is opened with `encoding='utf-8', errors='ignore'`: bytes
that do not decode are silently dropped.  A raw line is modelled as a list of
tokens, each either a decodable character or an undecodable byte. -/

/-- One token of a raw dictionary line: a character that decodes, or a byte
that does not decode as UTF-8. -/
inductive RawTok
  | chr (c : Char)
  | bad
deriving DecidableEq

/-- Decoding a raw line under `errors='ignore'`: undecodable bytes are
dropped, the decodable characters are kept in order. -/
def decodeIgnore (line : List RawTok) : List Char :=
  line.filterMap (fun t => match t with | .chr c => some c | .bad => none)

/-- A dictionary source passed to `load_password_dictionaries`: either the
path does not exist, or it is a readable file with raw lines. -/
inductive DictSource
  | missing
  | file (lines : List (List RawTok))
deriving DecidableEq

/-- The hashes contributed by one source in `load_password_dictionaries`
(src/utils/dictionary_loader.py lines 9-34): a missing path is skipped; in a
readable file every line is decoded under `errors='ignore'`, stripped, and,
when non-empty and not starting with '#', hashed and inserted. -/
def loadSource (hash : List Char → List Char) (src : DictSource) :
    List (List Char) :=
  match src with
  | .missing => []
  | .file lines =>
    lines.filterMap (fun line =>
      let pwd := pyStrip (decodeIgnore line)
      if pwd ≠ [] ∧ startsWithHashMark pwd = false then some (hash pwd)
      else none)

/-- Embedding of `load_password_dictionaries`
(src/utils/dictionary_loader.py lines 6-36): the union over all sources of
the hashes of their kept lines.  The Python set is modelled as a list;
membership is the only operation the claims use. -/
def load_password_dictionaries (hash : List Char → List Char)
    (sources : List DictSource) : List (List Char) :=
  (sources.map (loadSource hash)).flatten

/-! ## src/core/checker.py -/

/-- Embedding of `PasswordChecker.is_common_password`
(src/core/checker.py lines 11-14): hash the candidate with the same digest
function and test membership in the loaded set. -/
def is_common_password (hash : List Char → List Char)
    (common_password_hashes : List (List Char)) (password : List Char) :
    Bool :=
  decide (hash password ∈ common_password_hashes)

/-! ## src/core/analyzer.py -/

/-- The part of the external oracle's output that
`PasswordAnalyzer` reads: the 0-4 score, the single warning string, and the
ordered suggestion list. -/
structure ZxcvbnResult where
  score : ℤ
  warning : List Char
  suggestions : List (List Char)

/-- The fields of the dict returned by `PasswordAnalyzer.analyze` that the
claims refer to (the remaining keys are verbatim copies of oracle fields). -/
structure AnalysisResult where
  password_length : ℕ
  score : ℤ
  is_common : Bool
  hash : List Char
  feedback : List (List Char)
  entropy : ℝ

/-- Embedding of `PasswordAnalyzer._generate_feedback`
(src/core/analyzer.py lines 46-96), mirroring the sequential appends of the
Python code. -/
noncomputable def generateFeedback (password : List Char) (z : ZxcvbnResult)
    (is_common : Bool) (entropy : ℝ) : List (List Char) :=
  let feedback : List (List Char) := []
  let feedback := if is_common then
    feedback ++ [("⚠️  This password has been exposed in data breaches").toList]
    else feedback
  let feedback := if z.warning ≠ [] then feedback ++ [z.warning] else feedback
  let feedback := feedback ++ z.suggestions
  let feedback := if password.length < 12 then
      feedback ++ [("Use at least 12 characters for better security").toList]
    else if password.length < 16 then
      feedback ++ [("Consider using 16+ characters for optimal security").toList]
    else feedback
  let feedback := if entropy < 40 then
      feedback ++ [("Password has low entropy - add more character variety").toList]
    else feedback
  let has_lower := password.any pyIsLower
  let has_upper := password.any pyIsUpper
  let has_digit := password.any pyIsDigit
  let has_special := password.any (fun c => !(pyIsAlnum c))
  let missing_types : List (List Char) := []
  let missing_types := if !has_lower then
    missing_types ++ [("lowercase letters").toList] else missing_types
  let missing_types := if !has_upper then
    missing_types ++ [("uppercase letters").toList] else missing_types
  let missing_types := if !has_digit then
    missing_types ++ [("numbers").toList] else missing_types
  let missing_types := if !has_special then
    missing_types ++ [("special characters").toList] else missing_types
  let feedback := if missing_types.length > 0 then
      feedback ++
        [("Add ").toList ++ pyJoin (", ").toList missing_types ++
          (" for better security").toList]
    else feedback
  feedback

/-- Embedding of `PasswordAnalyzer.analyze` (src/core/analyzer.py lines
11-44).  The external oracle result `z` is an input (the oracle is opaque);
the digest function is the `hash` argument; the checker's set is `db`. -/
noncomputable def analyze (hash : List Char → List Char)
    (db : List (List Char)) (password : List Char) (z : ZxcvbnResult) :
    AnalysisResult :=
  let is_common := is_common_password hash db password
  let pwd_hash := hash password
  let entropy := calculate_entropy password
  let feedback := generateFeedback password z is_common entropy
  { password_length := password.length
    score := z.score
    is_common := is_common
    hash := pwd_hash
    feedback := feedback
    entropy := entropy }

/-! ## src/core/generator.py

`secrets.SystemRandom` is modelled as a stream of index draws together with
a shuffling function: `pick k` is the index drawn by the k-th
`choice`/`randint` call of one generator invocation (reduced modulo the
relevant range), and `shuffle` is the list permutation applied by
`rng.shuffle`.  Quantifying over this structure quantifies over every
possible stream of random choices. -/

/-- Model of one `secrets.SystemRandom` stream. -/
structure SystemRandom where
  pick : Nat → Nat
  shuffle : List Char → List Char

/-- The k-th `rng.choice(l)` call: some element of `l` selected by the
random stream (the index is reduced modulo the list length). -/
def choiceAt (rng : SystemRandom) (k : Nat) (l : List α) (d : α) : α :=
  l.getD (rng.pick k % l.length) d

/-- Errors raised by the generator (`ValueError` in the source, named per
the spec's taxonomy). -/
inductive GenError
  | invalidLength
  | unknownStyle
deriving DecidableEq

/-- Embedding of `PasswordGenerator.generate_mixed`
(src/core/generator.py lines 70-90): guard `length < 4`, draw one lowercase,
one uppercase, one digit, one punctuation character, fill the remaining
`length - 4` positions from the combined charset, then shuffle. -/
def generate_mixed (rng : SystemRandom) (length : ℤ) :
    Except GenError (List Char) :=
  if length < 4 then .error .invalidLength
  else
    let charset := ascii_letters ++ string_digits ++ punctuation
    let password := [choiceAt rng 0 ascii_lowercase 'a',
                     choiceAt rng 1 ascii_uppercase 'A',
                     choiceAt rng 2 string_digits '0',
                     choiceAt rng 3 punctuation '!']
    let password := password ++
      (List.range (length - 4).toNat).map (fun i => choiceAt rng (4 + i) charset 'a')
    .ok (rng.shuffle password)

/-- Embedding of `PasswordGenerator.generate_alphanumeric`
(src/core/generator.py lines 92-110): guard `length < 2`, draw one letter
and one digit, fill the remaining `length - 2` positions from
letters+digits, then shuffle. -/
def generate_alphanumeric (rng : SystemRandom) (length : ℤ) :
    Except GenError (List Char) :=
  if length < 2 then .error .invalidLength
  else
    let charset := ascii_letters ++ string_digits
    let password := [choiceAt rng 0 ascii_letters 'a',
                     choiceAt rng 1 string_digits '0']
    let password := password ++
      (List.range (length - 2).toNat).map (fun i => choiceAt rng (2 + i) charset 'a')
    .ok (rng.shuffle password)

/-- Embedding of `PasswordGenerator.generate_pin`
(src/core/generator.py lines 112-113): `length` independent
`randint(0, 9)` draws, each rendered as its decimal digit; `range(length)`
is empty for non-positive `length` and there is no validation. -/
def generate_pin (rng : SystemRandom) (length : ℤ) : List Char :=
  (List.range length.toNat).map (fun k => Char.ofNat (48 + rng.pick k % 10))

/-- The word count drawn by `generate_passphrase`
(src/core/generator.py lines 51-53):
`max(3, ceil(entropy / log2(len(words))))`. -/
noncomputable def words_needed (wordlist : List (List Char)) (entropy : ℤ) :
    ℤ :=
  max 3 ⌈(entropy : ℝ) / Real.logb 2 (wordlist.length : ℝ)⌉

/-- The words selected by `generate_passphrase`
(src/core/generator.py line 56): `words_needed` independent uniform choices
from the wordlist. -/
noncomputable def passphrase_words (rng : SystemRandom)
    (wordlist : List (List Char)) (entropy : ℤ) : List (List Char) :=
  (List.range (words_needed wordlist entropy).toNat).map
    (fun k => choiceAt rng k wordlist [])

/-! ## Definitions following the specification's words, for comparison -/

/-- The specification's feedback contract (spec section 4.3), written as the
concatenation of the six blocks in the order the claim states them: breach
warning, oracle warning when non-empty, oracle suggestions, length
recommendation, low-entropy warning, aggregated missing-classes message. -/
noncomputable def feedbackSpec (password : List Char) (z : ZxcvbnResult)
    (is_common : Bool) (entropy : ℝ) : List (List Char) :=
  (if is_common then
    [("⚠️  This password has been exposed in data breaches").toList] else []) ++
  (if z.warning ≠ [] then [z.warning] else []) ++
  z.suggestions ++
  (if password.length < 12 then
      [("Use at least 12 characters for better security").toList]
    else if password.length < 16 then
      [("Consider using 16+ characters for optimal security").toList]
    else []) ++
  (if entropy < 40 then
      [("Password has low entropy - add more character variety").toList]
    else []) ++
  (let missing_types : List (List Char) :=
    (if !password.any pyIsLower then [("lowercase letters").toList] else []) ++
    (if !password.any pyIsUpper then [("uppercase letters").toList] else []) ++
    (if !password.any pyIsDigit then [("numbers").toList] else []) ++
    (if !password.any (fun c => !(pyIsAlnum c)) then
      [("special characters").toList] else [])
  if missing_types ≠ [] then
    [("Add ").toList ++ pyJoin (", ").toList missing_types ++
      (" for better security").toList]
  else [])

/-- The claim's charset formula: the sum, over the character classes present
in the candidate, of the fixed per-class contributions (26, 26, 10, size of
the punctuation class, 1, 100). -/
def charsetSizeSpec (password : List Char) : Nat :=
  (([(pyIsLower, 26), (pyIsUpper, 26), (pyIsDigit, 10),
     ((fun c => decide (c ∈ punctuation)), punctuation.length),
     (pyIsSpace, 1),
     ((fun c => decide (127 < c.toNat)), 100)] :
      List ((Char → Bool) × Nat)).map
    (fun cl => if password.any cl.1 then cl.2 else 0)).sum

/-- The claim's entropy formula: `length × log2(charset_size)` with the
empty candidate (and a charset size of zero) yielding 0. -/
noncomputable def calculate_entropySpec (password : List Char) : ℝ :=
  if password = [] then 0
  else if charsetSizeSpec password = 0 then 0
  else (password.length : ℝ) * Real.logb 2 (charsetSizeSpec password)

/-- The claim's disjoint-class reading of the entropy charset: the six
classes partition the characters, so a non-ASCII character belongs only to
the "extended" class and the five concrete classes are restricted to ASCII.
Contributions are as in the claim. -/
def charsetSizeDisjointSpec (password : List Char) : Nat :=
  (if password.any (fun c => c.toNat ≤ 127 && pyIsLower c) then 26 else 0) +
  (if password.any (fun c => c.toNat ≤ 127 && pyIsUpper c) then 26 else 0) +
  (if password.any (fun c => c.toNat ≤ 127 && pyIsDigit c) then 10 else 0) +
  (if password.any (fun c => c.toNat ≤ 127 && decide (c ∈ punctuation)) then
    punctuation.length else 0) +
  (if password.any (fun c => c.toNat ≤ 127 && pyIsSpace c) then 1 else 0) +
  (if password.any (fun c => 127 < c.toNat) then 100 else 0)

/-- The claim's entropy under the disjoint-class reading. -/
noncomputable def calculate_entropyDisjointSpec (password : List Char) : ℝ :=
  if password = [] then 0
  else if charsetSizeDisjointSpec password = 0 then 0
  else (password.length : ℝ) * Real.logb 2 (charsetSizeDisjointSpec password)

/-- The claim's reading of encoding-error handling for one source: a source
any of whose lines contains an undecodable byte is skipped whole, so it
contributes no entry. -/
def loadSourceSkipSpec (hash : List Char → List Char) (src : DictSource) :
    List (List Char) :=
  match src with
  | .missing => []
  | .file lines =>
    if lines.any (fun line => line.any (fun t => decide (t = .bad))) then []
    else loadSource hash (.file lines)

/-- The claim's reading of `load_password_dictionaries`: per-source skip on
encoding errors. -/
def load_password_dictionaries_skipSpec (hash : List Char → List Char)
    (sources : List DictSource) : List (List Char) :=
  (sources.map (loadSourceSkipSpec hash)).flatten

/-! ## Helper lemmas -/

/-- The six character-class activation flags of a candidate, in the order
`calculate_entropy` tests them. -/
def classFlags (password : List Char) :
    Bool × Bool × Bool × Bool × Bool × Bool :=
  (password.any pyIsLower, password.any pyIsUpper, password.any pyIsDigit,
   password.any (fun c => c ∈ punctuation), password.any pyIsSpace,
   password.any (fun c => 127 < c.toNat))

/-- The charset size as a function of the activation flags. -/
def charsetSizeOfFlags (f : Bool × Bool × Bool × Bool × Bool × Bool) : Nat :=
  (if f.1 then 26 else 0) + (if f.2.1 then 26 else 0) +
  (if f.2.2.1 then 10 else 0) +
  (if f.2.2.2.1 then punctuation.length else 0) +
  (if f.2.2.2.2.1 then 1 else 0) + (if f.2.2.2.2.2 then 100 else 0)

/-- Pointwise order on activation flags: every class present on the left is
present on the right. -/
def flagsLe (f g : Bool × Bool × Bool × Bool × Bool × Bool) : Prop :=
  f.1 ≤ g.1 ∧ f.2.1 ≤ g.2.1 ∧ f.2.2.1 ≤ g.2.2.1 ∧ f.2.2.2.1 ≤ g.2.2.2.1 ∧
  f.2.2.2.2.1 ≤ g.2.2.2.2.1 ∧ f.2.2.2.2.2 ≤ g.2.2.2.2.2

instance (f g : Bool × Bool × Bool × Bool × Bool × Bool) :
    Decidable (flagsLe f g) := by unfold flagsLe; infer_instance

lemma charsetSize_eq_flags (password : List Char) :
    charsetSize password = charsetSizeOfFlags (classFlags password) := rfl

lemma charsetSizeOfFlags_strict_mono
    {f g : Bool × Bool × Bool × Bool × Bool × Bool}
    (hle : flagsLe f g) (hne : f ≠ g) :
    charsetSizeOfFlags f < charsetSizeOfFlags g := by
  revert hle hne
  revert f g
  set_option maxRecDepth 4000 in decide

lemma choiceAt_mem (rng : SystemRandom) (k : Nat) (l : List α) (d : α)
    (h : l ≠ []) : choiceAt rng k l d ∈ l := by
  have hpos : 0 < l.length := List.length_pos.mpr h
  have hlt : rng.pick k % l.length < l.length := Nat.mod_lt _ hpos
  unfold choiceAt
  rw [List.getD_eq_getElem l d hlt]
  exact List.getElem_mem hlt

/-- Any line of any readable source of the loader that strips to a
non-empty non-comment password contributes its hash to the built index. -/
lemma mem_load_password_dictionaries (hash : List Char → List Char)
    (sources : List DictSource) (lines : List (List RawTok))
    (line : List RawTok)
    (hsrc : DictSource.file lines ∈ sources) (hline : line ∈ lines)
    (hne : pyStrip (decodeIgnore line) ≠ [])
    (hcomment : startsWithHashMark (pyStrip (decodeIgnore line)) = false) :
    hash (pyStrip (decodeIgnore line)) ∈
      load_password_dictionaries hash sources := by
  unfold load_password_dictionaries
  rw [List.mem_flatten]
  refine ⟨loadSource hash (.file lines), List.mem_map_of_mem _ hsrc, ?_⟩
  unfold loadSource
  rw [List.mem_filterMap]
  refine ⟨line, hline, ?_⟩
  simp only [hne, hcomment, ne_eq, not_false_iff, true_and, if_pos]

/-! ## Claim theorems -/

/-- A concrete digest function used to instantiate the abstract `hash`
argument in counterexamples and witnesses (any function works; the real
SHA-256 hex digest is one such function). -/
def idHash : List Char → List Char := fun l => l

/-- C1, counterexample: with the password "password" loaded in the index
(so `is_common = true`) and an external oracle score of 3, the analysis
result produced by `PasswordAnalyzer.analyze` carries score 3, not 0: the
breach flag does not force the carried strength score to 0. -/
theorem breach_score_counterexample :
    (analyze idHash [("password").toList] ("password").toList
      ⟨3, [], []⟩).is_common = true ∧
    (analyze idHash [("password").toList] ("password").toList
      ⟨3, [], []⟩).score = 3 ∧
    (analyze idHash [("password").toList] ("password").toList
      ⟨3, [], []⟩).score ≠ 0 := by
  refine ⟨by decide, rfl, by decide⟩

/-- C1 (amended): the strength score carried in the analysis result is the
external oracle's score verbatim, for every candidate, index and oracle
output — breach status never alters it.  The breach-dominates rule is
implemented by `calculate_password_strength_score` (which does return 0 for
every entropy whenever `is_common` is true), but `analyze` never invokes
that function. -/
theorem score_is_oracle_verbatim :
    (∀ (hash : List Char → List Char) (db : List (List Char))
        (password : List Char) (z : ZxcvbnResult),
      (analyze hash db password z).score = z.score) ∧
    (∀ e : ℝ, calculate_password_strength_score e true = 0) :=
  ⟨fun _ _ _ _ => rfl, fun _ => rfl⟩

/-- C4, counterexample: the character classes of `calculate_entropy` are not
disjoint.  For the single character U+00E9 ("é"), which is a lowercase
letter and non-ASCII, the code activates both the lowercase class (26) and
the extended class (100), giving charset size 126 and entropy log2 126,
whereas the claimed disjoint classification puts it in the extended class
only, giving charset size 100 and entropy log2 100. -/
theorem entropy_disjoint_counterexample :
    calculate_entropy [Char.ofNat 233] ≠
      calculate_entropyDisjointSpec [Char.ofNat 233] := by
  have h1 : charsetSize [Char.ofNat 233] = 126 := by decide
  have h2 : charsetSizeDisjointSpec [Char.ofNat 233] = 100 := by decide
  simp only [calculate_entropy, calculate_entropyDisjointSpec, h1, h2]
  norm_num
  exact ne_of_gt (Real.logb_lt_logb (by norm_num) (by norm_num) (by norm_num))

/-- C4 (amended): for every candidate, `calculate_entropy` returns
`length × log2(charset_size)` where `charset_size` is the sum, over the
(possibly overlapping) character classes present in the candidate —
lowercase, uppercase, digits, punctuation, whitespace, extended non-ASCII —
of the fixed contributions 26, 26, 10, the size of the punctuation class,
1 and 100, regardless of how many characters belong to each class; the
empty candidate (and a candidate activating no class) yields 0. -/
theorem entropy_formula (password : List Char) :
    calculate_entropy password = calculate_entropySpec password := by
  have hp : punctuation.length = 32 := by decide
  have h : charsetSize password = charsetSizeSpec password := by
    simp only [charsetSize, charsetSizeSpec, List.map_cons, List.map_nil,
      List.sum_cons, List.sum_nil, hp]
    split_ifs <;> omega
  unfold calculate_entropy calculate_entropySpec
  rw [h]

/-- C5, counterexample: at fixed length 1, the candidate DEL (U+007F)
activates no character class, and the candidate " " activates one
additional class (whitespace, contribution 1 > 0); yet the entropy does not
strictly increase: both entropies are 0 (1 × log2 1 = 0). -/
theorem entropy_strict_counterexample :
    ([Char.ofNat 127] : List Char).length = ([' '] : List Char).length ∧
    flagsLe (classFlags [Char.ofNat 127]) (classFlags [' ']) ∧
    classFlags [Char.ofNat 127] ≠ classFlags [' '] ∧
    ¬ calculate_entropy [Char.ofNat 127] < calculate_entropy [' '] := by
  refine ⟨by decide, by decide, by decide, ?_⟩
  have h1 : charsetSize [Char.ofNat 127] = 0 := by decide
  have h2 : charsetSize [' '] = 1 := by decide
  simp [calculate_entropy, h1, h2]

/-- C5 (amended): over non-empty candidates, `calculate_entropy` is
monotonically non-decreasing in length when the set of active character
classes is held constant; and at fixed length, a candidate with
additional character classes present has strictly greater entropy provided
the smaller candidate activates at least one class (a candidate activating
no class at all — e.g. one made of ASCII control characters — has entropy 0
and the strict increase can fail). -/
theorem entropy_monotone (p q : List Char) (hp : p ≠ []) (hq : q ≠ []) :
    ((classFlags p = classFlags q ∧ p.length ≤ q.length) →
      calculate_entropy p ≤ calculate_entropy q) ∧
    ((p.length = q.length ∧ flagsLe (classFlags p) (classFlags q) ∧
        classFlags p ≠ classFlags q ∧ charsetSize p ≠ 0) →
      calculate_entropy p < calculate_entropy q) := by
  constructor
  · rintro ⟨hf, hl⟩
    have hsz : charsetSize p = charsetSize q := by
      rw [charsetSize_eq_flags, charsetSize_eq_flags, hf]
    unfold calculate_entropy
    rw [if_neg hp, if_neg hq, ← hsz]
    by_cases h0 : charsetSize p = 0
    · rw [if_pos h0, if_pos h0]
    · rw [if_neg h0, if_neg h0]
      apply mul_le_mul_of_nonneg_right
      · exact_mod_cast hl
      · exact Real.logb_nonneg (by norm_num)
          (by exact_mod_cast Nat.one_le_iff_ne_zero.mpr h0)
  · rintro ⟨hl, hle, hne, h0⟩
    have hlt : charsetSize p < charsetSize q := by
      rw [charsetSize_eq_flags, charsetSize_eq_flags]
      exact charsetSizeOfFlags_strict_mono hle hne
    have h0q : charsetSize q ≠ 0 := by omega
    unfold calculate_entropy
    rw [if_neg hp, if_neg hq, if_neg h0, if_neg h0q, hl]
    apply mul_lt_mul_of_pos_left
    · exact Real.logb_lt_logb (by norm_num)
        (by exact_mod_cast Nat.pos_of_ne_zero h0) (by exact_mod_cast hlt)
    · exact_mod_cast List.length_pos.mpr hq

/-- C5 witness: the amended theorem applied at concrete candidates — "a" to
"aa" (same class set, longer) and "aa" to "aA" (same length, one more
class). -/
theorem entropy_monotone_witness :
    ((['a'] : List Char) ≠ [] ∧ (['a', 'a'] : List Char) ≠ [] ∧
      (['a', 'A'] : List Char) ≠ []) ∧
    calculate_entropy ['a'] ≤ calculate_entropy ['a', 'a'] ∧
    calculate_entropy ['a', 'a'] < calculate_entropy ['a', 'A'] := by
  refine ⟨⟨by decide, by decide, by decide⟩, ?_, ?_⟩
  · exact (entropy_monotone ['a'] ['a', 'a'] (by decide) (by decide)).1
      ⟨by decide, by decide⟩
  · exact (entropy_monotone ['a', 'a'] ['a', 'A'] (by decide) (by decide)).2
      ⟨by decide, by decide, by decide, by decide⟩

/-- C2: every dictionary line that is loaded during index construction (its
source is readable and, after decoding and trimming, the line is non-empty
and not a comment) is found again by `PasswordChecker.is_common_password`
for the exact trimmed line: the round trip through the same digest function
produces no false negatives, for every digest function. -/
theorem index_no_false_negatives (hash : List Char → List Char)
    (sources : List DictSource) (lines : List (List RawTok))
    (line : List RawTok) (pwd : List Char)
    (hsrc : DictSource.file lines ∈ sources) (hline : line ∈ lines)
    (hpwd : pwd = pyStrip (decodeIgnore line)) (hne : pwd ≠ [])
    (hcomment : startsWithHashMark pwd = false) :
    is_common_password hash (load_password_dictionaries hash sources) pwd
      = true := by
  subst hpwd
  unfold is_common_password
  rw [decide_eq_true_eq]
  exact mem_load_password_dictionaries hash sources lines line hsrc hline
    hne hcomment

/-- C2 witness: the round trip at the concrete one-line dictionary
containing "a". -/
theorem index_no_false_negatives_witness :
    (DictSource.file [[RawTok.chr 'a']] ∈
        ([DictSource.file [[RawTok.chr 'a']]] : List DictSource) ∧
      [RawTok.chr 'a'] ∈ [[RawTok.chr 'a']] ∧
      (['a'] : List Char) = pyStrip (decodeIgnore [RawTok.chr 'a']) ∧
      (['a'] : List Char) ≠ [] ∧
      startsWithHashMark ['a'] = false) ∧
    is_common_password idHash
      (load_password_dictionaries idHash [DictSource.file [[RawTok.chr 'a']]])
      ['a'] = true := by
  refine ⟨⟨by decide, by decide, by decide, by decide, by decide⟩, ?_⟩
  exact index_no_false_negatives idHash [DictSource.file [[RawTok.chr 'a']]]
    [[RawTok.chr 'a']] [RawTok.chr 'a'] ['a'] (by decide) (by decide)
    (by decide) (by decide) (by decide)

/-- A dictionary line containing an undecodable byte between 'p' and 'w'. -/
def badLine : List RawTok := [RawTok.chr 'p', RawTok.bad, RawTok.chr 'w']

/-- C9, counterexample: a source whose only line contains an undecodable
byte is not skipped: the loader (which opens the file with
`errors='ignore'`) silently drops the byte and inserts the remaining
characters "pw", whereas under the claimed per-source skip no entry from
that source would be inserted. -/
theorem encoding_skip_counterexample :
    RawTok.bad ∈ badLine ∧
    idHash ['p', 'w'] ∈
      load_password_dictionaries idHash [DictSource.file [badLine]] ∧
    load_password_dictionaries_skipSpec idHash [DictSource.file [badLine]]
      = [] := by decide

/-- C9 (amended): undecodable bytes in a dictionary line are silently
dropped (`errors='ignore'`), so no decoding error is ever raised and the
source is not skipped: every line of such a source — including a line
containing undecodable bytes — still contributes its decoded, trimmed
content to the index when non-empty and not a comment (the
`UnicodeDecodeError` handler in the source is unreachable). -/
theorem encoding_ignore_loads (hash : List Char → List Char)
    (sources : List DictSource) (lines : List (List RawTok))
    (line : List RawTok)
    (hsrc : DictSource.file lines ∈ sources) (hline : line ∈ lines)
    (hbad : RawTok.bad ∈ line)
    (hne : pyStrip (decodeIgnore line) ≠ [])
    (hcomment : startsWithHashMark (pyStrip (decodeIgnore line)) = false) :
    hash (pyStrip (decodeIgnore line)) ∈
      load_password_dictionaries hash sources :=
  mem_load_password_dictionaries hash sources lines line hsrc hline hne
    hcomment

/-- C9 witness: the amended theorem at the concrete undecodable line. -/
theorem encoding_ignore_loads_witness :
    (DictSource.file [badLine] ∈
        ([DictSource.file [badLine]] : List DictSource) ∧
      badLine ∈ [badLine] ∧ RawTok.bad ∈ badLine ∧
      pyStrip (decodeIgnore badLine) ≠ [] ∧
      startsWithHashMark (pyStrip (decodeIgnore badLine)) = false) ∧
    idHash (pyStrip (decodeIgnore badLine)) ∈
      load_password_dictionaries idHash [DictSource.file [badLine]] := by
  refine ⟨⟨by decide, by decide, by decide, by decide, by decide⟩, ?_⟩
  exact encoding_ignore_loads idHash [DictSource.file [badLine]] [badLine]
    badLine (by decide) (by decide) (by decide) (by decide) (by decide)

lemma ite_append_eq (c : Prop) [Decidable c] (l a : List α) :
    (if c then l ++ a else l) = l ++ (if c then a else []) := by
  split_ifs <;> simp

lemma ite_ite_append_eq (c d : Prop) [Decidable c] [Decidable d]
    (l a b : List α) :
    (if c then l ++ a else if d then l ++ b else l) =
      l ++ (if c then a else if d then b else []) := by
  split_ifs <;> simp

/-- C3: for every candidate, breach flag, entropy value and oracle output,
the feedback list is exactly the concatenation, in order, of: (1) the
breach warning iff breached; (2) the oracle's warning iff non-empty;
(3) the oracle's suggestions in order; (4) the length recommendation
("at least 12" iff length < 12, else "16+" iff length < 16, else nothing);
(5) the low-entropy warning iff entropy < 40; (6) one aggregated message
naming every missing class iff at least one is absent. -/
theorem feedback_assembly (password : List Char) (z : ZxcvbnResult)
    (is_common : Bool) (entropy : ℝ) :
    generateFeedback password z is_common entropy =
      feedbackSpec password z is_common entropy := by
  unfold generateFeedback feedbackSpec
  simp only [ite_append_eq, ite_ite_append_eq, List.length_pos]
  simp only [List.nil_append, List.append_assoc]
  by_cases h12 : password.length < 12 <;> simp [h12, List.append_assoc]

/-- C6: for every length at least 4 and every stream of random choices,
`generate_mixed` succeeds with a password of exactly `length` characters,
each drawn from letters, digits and punctuation, containing at least one
lowercase letter, one uppercase letter, one digit and one punctuation
character; the final shuffle (any permutation) preserves all of this. -/
theorem generate_mixed_guarantees (rng : SystemRandom) (length : ℤ)
    (hlen : 4 ≤ length) (hshuffle : ∀ l, (rng.shuffle l).Perm l) :
    ∃ out, generate_mixed rng length = .ok out ∧
      out.length = length.toNat ∧
      (∀ c ∈ out, c ∈ ascii_letters ++ string_digits ++ punctuation) ∧
      (∃ c ∈ out, c ∈ ascii_lowercase) ∧
      (∃ c ∈ out, c ∈ ascii_uppercase) ∧
      (∃ c ∈ out, c ∈ string_digits) ∧
      (∃ c ∈ out, c ∈ punctuation) := by
  have h4 : ¬ length < 4 := by omega
  simp only [generate_mixed, if_neg h4]
  set base := [choiceAt rng 0 ascii_lowercase 'a',
    choiceAt rng 1 ascii_uppercase 'A', choiceAt rng 2 string_digits '0',
    choiceAt rng 3 punctuation '!'] ++
    (List.range (length - 4).toNat).map
      (fun i => choiceAt rng (4 + i)
        (ascii_letters ++ string_digits ++ punctuation) 'a') with hbase
  have hperm := hshuffle base
  have hsub : ∀ c ∈ base,
      c ∈ ascii_letters ++ string_digits ++ punctuation := by
    intro c hc
    rw [hbase] at hc
    simp only [List.mem_append, List.mem_cons, List.mem_map,
      List.mem_range, List.not_mem_nil, or_false] at hc
    have hlsub : ∀ c ∈ ascii_lowercase,
        c ∈ ascii_letters ++ string_digits ++ punctuation := by decide
    have husub : ∀ c ∈ ascii_uppercase,
        c ∈ ascii_letters ++ string_digits ++ punctuation := by decide
    have hdsub : ∀ c ∈ string_digits,
        c ∈ ascii_letters ++ string_digits ++ punctuation := by decide
    have hpsub : ∀ c ∈ punctuation,
        c ∈ ascii_letters ++ string_digits ++ punctuation := by decide
    rcases hc with (rfl | rfl | rfl | rfl) | ⟨i, -, rfl⟩
    · exact hlsub _ (choiceAt_mem rng 0 _ _ (by decide))
    · exact husub _ (choiceAt_mem rng 1 _ _ (by decide))
    · exact hdsub _ (choiceAt_mem rng 2 _ _ (by decide))
    · exact hpsub _ (choiceAt_mem rng 3 _ _ (by decide))
    · exact choiceAt_mem rng (4 + i) _ _ (by decide)
  refine ⟨rng.shuffle base, rfl, ?_, ?_, ?_, ?_, ?_, ?_⟩
  · rw [hperm.length_eq, hbase]
    simp only [List.length_append, List.length_cons, List.length_map,
      List.length_range, List.length_nil]
    omega
  · intro c hc
    exact hsub c (hperm.mem_iff.mp hc)
  · exact ⟨choiceAt rng 0 ascii_lowercase 'a',
      hperm.mem_iff.mpr (by rw [hbase]; simp),
      choiceAt_mem rng 0 _ _ (by decide)⟩
  · exact ⟨choiceAt rng 1 ascii_uppercase 'A',
      hperm.mem_iff.mpr (by rw [hbase]; simp),
      choiceAt_mem rng 1 _ _ (by decide)⟩
  · exact ⟨choiceAt rng 2 string_digits '0',
      hperm.mem_iff.mpr (by rw [hbase]; simp),
      choiceAt_mem rng 2 _ _ (by decide)⟩
  · exact ⟨choiceAt rng 3 punctuation '!',
      hperm.mem_iff.mpr (by rw [hbase]; simp),
      choiceAt_mem rng 3 _ _ (by decide)⟩

/-- A concrete random stream: always draw index 0 and leave the order
unchanged (the identity shuffle is a permutation). -/
def rngZero : SystemRandom := ⟨fun _ => 0, fun l => l⟩

/-- C6 witness: the guarantees at length 16 with a concrete stream. -/
theorem generate_mixed_guarantees_witness :
    ((4:ℤ) ≤ 16 ∧ ∀ l, (rngZero.shuffle l).Perm l) ∧
    ∃ out, generate_mixed rngZero 16 = .ok out ∧
      out.length = (16:ℤ).toNat ∧
      (∀ c ∈ out, c ∈ ascii_letters ++ string_digits ++ punctuation) ∧
      (∃ c ∈ out, c ∈ ascii_lowercase) ∧
      (∃ c ∈ out, c ∈ ascii_uppercase) ∧
      (∃ c ∈ out, c ∈ string_digits) ∧
      (∃ c ∈ out, c ∈ punctuation) :=
  ⟨⟨by decide, fun l => List.Perm.refl l⟩,
    generate_mixed_guarantees rngZero 16 (by decide)
      (fun l => List.Perm.refl l)⟩

/-- C7: `generate_mixed` fails with `InvalidLength` exactly when
length < 4, and `generate_alphanumeric` exactly when length < 2; in
particular mixed(4) and alphanumeric(4) succeed while mixed(3) and
alphanumeric(1) fail, and on failure no password is produced (the result
carries an error, never a password). -/
theorem generator_length_validation (rng : SystemRandom) (length : ℤ) :
    (generate_mixed rng length = .error .invalidLength ↔ length < 4) ∧
    ((∃ p, generate_mixed rng length = .ok p) ↔ 4 ≤ length) ∧
    (generate_alphanumeric rng length = .error .invalidLength ↔
      length < 2) ∧
    ((∃ p, generate_alphanumeric rng length = .ok p) ↔ 2 ≤ length) ∧
    (∃ p, generate_mixed rng 4 = .ok p) ∧
    (∃ p, generate_alphanumeric rng 4 = .ok p) ∧
    generate_mixed rng 3 = .error .invalidLength ∧
    generate_alphanumeric rng 1 = .error .invalidLength := by
  have hm : ∀ L : ℤ,
      (generate_mixed rng L = .error .invalidLength ↔ L < 4) ∧
      ((∃ p, generate_mixed rng L = .ok p) ↔ 4 ≤ L) := by
    intro L
    unfold generate_mixed
    split_ifs with h
    · refine ⟨?_, ?_⟩ <;> simp <;> omega
    · refine ⟨?_, ?_⟩ <;> simp <;> omega
  have ha : ∀ L : ℤ,
      (generate_alphanumeric rng L = .error .invalidLength ↔ L < 2) ∧
      ((∃ p, generate_alphanumeric rng L = .ok p) ↔ 2 ≤ L) := by
    intro L
    unfold generate_alphanumeric
    split_ifs with h
    · refine ⟨?_, ?_⟩ <;> simp <;> omega
    · refine ⟨?_, ?_⟩ <;> simp <;> omega
  exact ⟨(hm length).1, (hm length).2, (ha length).1, (ha length).2,
    (hm 4).2.mpr (by norm_num), (ha 4).2.mpr (by norm_num),
    (hm 3).1.mpr (by norm_num), (ha 1).1.mpr (by norm_num)⟩

/-- C8: for every random stream, wordlist of size at least 2 and requested
entropy, `generate_passphrase` draws exactly
`max(3, ceil(entropy / log2(size)))` words, the word-derived entropy
`word_count × log2(size)` is at least the requested entropy, and with a
7776-word list and 52 requested bits at least 5 words are drawn. -/
theorem passphrase_entropy_bound (rng : SystemRandom)
    (wordlist : List (List Char)) (entropy : ℤ)
    (hw : 2 ≤ wordlist.length) :
    (passphrase_words rng wordlist entropy).length =
        (words_needed wordlist entropy).toNat ∧
    (entropy : ℝ) ≤ (words_needed wordlist entropy : ℝ) *
        Real.logb 2 (wordlist.length : ℝ) ∧
    (wordlist.length = 7776 → entropy = 52 →
      5 ≤ words_needed wordlist entropy) := by
  have hpos : (0:ℝ) < (wordlist.length : ℝ) := by
    exact_mod_cast (by omega : 0 < wordlist.length)
  have hb1 : (1:ℝ) ≤ Real.logb 2 (wordlist.length : ℝ) := by
    rw [Real.le_logb_iff_rpow_le (by norm_num) hpos, Real.rpow_one]
    exact_mod_cast hw
  have hbpos : (0:ℝ) < Real.logb 2 (wordlist.length : ℝ) :=
    lt_of_lt_of_le one_pos hb1
  refine ⟨by simp [passphrase_words], ?_, ?_⟩
  · have h1 : (entropy : ℝ) / Real.logb 2 (wordlist.length : ℝ) ≤
        ((words_needed wordlist entropy : ℤ) : ℝ) := by
      calc (entropy : ℝ) / Real.logb 2 (wordlist.length : ℝ)
          ≤ ((⌈(entropy : ℝ) / Real.logb 2 (wordlist.length : ℝ)⌉ : ℤ) : ℝ) :=
            Int.le_ceil _
        _ ≤ ((words_needed wordlist entropy : ℤ) : ℝ) := by
            unfold words_needed
            exact_mod_cast le_max_right 3 _
    calc (entropy : ℝ)
        = (entropy : ℝ) / Real.logb 2 (wordlist.length : ℝ) *
            Real.logb 2 (wordlist.length : ℝ) :=
          (div_mul_cancel₀ _ (ne_of_gt hbpos)).symm
      _ ≤ (words_needed wordlist entropy : ℝ) *
            Real.logb 2 (wordlist.length : ℝ) :=
          mul_le_mul_of_nonneg_right h1 (le_of_lt hbpos)
  · intro h7 h52
    subst h52
    have hlen : (wordlist.length : ℝ) = 7776 := by exact_mod_cast h7
    unfold words_needed
    rw [hlen]
    have hbpos7 : (0:ℝ) < Real.logb 2 (7776:ℝ) :=
      Real.logb_pos (by norm_num) (by norm_num)
    have hblt : Real.logb 2 (7776:ℝ) < 13 := by
      rw [Real.logb_lt_iff_lt_rpow (by norm_num) (by norm_num)]
      rw [show (13:ℝ) = ((13:ℕ):ℝ) by norm_num, Real.rpow_natCast]
      norm_num
    have h4 : (4:ℝ) < ((52:ℤ) : ℝ) / Real.logb 2 (7776:ℝ) := by
      rw [lt_div_iff₀ hbpos7]
      push_cast
      nlinarith
    have hceil : (4:ℤ) < ⌈((52:ℤ) : ℝ) / Real.logb 2 (7776:ℝ)⌉ :=
      Int.lt_ceil.mpr (by exact_mod_cast h4)
    have : (5:ℤ) ≤ ⌈((52:ℤ) : ℝ) / Real.logb 2 (7776:ℝ)⌉ := by omega
    exact le_max_of_le_right this

/-- C8 witness: a 7776-word list with 52 requested bits yields at least
5 words. -/
theorem passphrase_entropy_bound_witness :
    2 ≤ (List.replicate 7776 (['w'] : List Char)).length ∧
    5 ≤ words_needed (List.replicate 7776 ['w']) 52 := by
  have h : 2 ≤ (List.replicate 7776 (['w'] : List Char)).length := by
    rw [List.length_replicate]; norm_num
  exact ⟨h, (passphrase_entropy_bound rngZero (List.replicate 7776 ['w'])
    52 h).2.2 (List.length_replicate 7776 ['w']) rfl⟩

/-- C10: `generate_pin` validates nothing: for every integer length and
every random stream it is total (never raises), returns exactly
`length` characters when length is non-negative, every character is a
decimal digit, and the result is empty exactly when length is
non-positive. -/
theorem generate_pin_no_validation (rng : SystemRandom) (length : ℤ) :
    (generate_pin rng length).length = length.toNat ∧
    (∀ c ∈ generate_pin rng length, c ∈ string_digits) ∧
    (generate_pin rng length = [] ↔ length ≤ 0) := by
  have hd : ∀ m : ℕ, m < 10 → Char.ofNat (48 + m) ∈ string_digits := by
    decide
  refine ⟨by simp [generate_pin], ?_, ?_⟩
  · intro c hc
    simp only [generate_pin, List.mem_map, List.mem_range] at hc
    obtain ⟨k, -, rfl⟩ := hc
    exact hd _ (Nat.mod_lt _ (by norm_num))
  · simp [generate_pin, Int.toNat_eq_zero]

end PassAudit
